import Mathlib

/-!
Shallow embedding of libcamera's geometry module (src/libcamera/geometry.cpp).

The C++ types store `int` (32-bit signed) and `unsigned int` (32-bit
unsigned) fields, and every arithmetic step that could overflow 32 bits is
performed by the source on explicitly widened 64-bit intermediates
(`uint64_t` / `int64_t` casts before multiplying).  Since all fields fit in
32 bits, those 64-bit intermediates never overflow, so exact `Nat` / `Int`
arithmetic is a faithful model of every defined execution.  C++ signed
division truncates toward zero, which is `Int.tdiv` here; unsigned division
is `Nat` division.
-/

namespace Libcamera

/-- A point in two-dimensional space; coordinates may be negative
(`struct Point { int x; int y; }`). -/
structure Point where
  x : Int
  y : Int
deriving DecidableEq, Repr

/-- A two-dimensional size (`struct Size { unsigned int width; unsigned int height; }`). -/
structure Size where
  width : Nat
  height : Nat
deriving DecidableEq, Repr

/-- A rectangle: top-left position plus extent
(`struct Rectangle { int x; int y; unsigned int width; unsigned int height; }`). -/
structure Rectangle where
  x : Int
  y : Int
  width : Nat
  height : Nat
deriving DecidableEq, Repr

/-- An inclusive, optionally stepped, range of sizes
(`struct SizeRange { Size min; Size max; unsigned int hStep; unsigned int vStep; }`). -/
structure SizeRange where
  min : Size
  max : Size
  hStep : Nat
  vStep : Nat
deriving DecidableEq, Repr

/-- `bool operator<(const Size &lhs, const Size &rhs)` (geometry.cpp:343-360).
The early `return`s of the source become nested `if`s; the `uint64_t` area
products are exact `Nat` products. -/
def sizeLt (lhs rhs : Size) : Bool :=
  if lhs.width < rhs.width ∧ lhs.height < rhs.height then
    true
  else if lhs.width ≥ rhs.width ∧ lhs.height ≥ rhs.height then
    false
  else if lhs.width * lhs.height < rhs.width * rhs.height then
    true
  else if lhs.width * lhs.height > rhs.width * rhs.height then
    false
  else
    decide (lhs.width < rhs.width)

/-- `bool SizeRange::contains(const Size &size) const` (geometry.cpp:471-480).
In every case where the step-modulo disjuncts influence the result the
earlier bound disjuncts are false, so `size.width ≥ min.width` and the
truncated `Nat` subtraction agrees with the C++ unsigned subtraction. -/
def SizeRange.contains (r : SizeRange) (size : Size) : Bool :=
  if size.width < r.min.width ∨ size.width > r.max.width ∨
     size.height < r.min.height ∨ size.height > r.max.height ∨
     (r.hStep ≠ 0 ∧ (size.width - r.min.width) % r.hStep ≠ 0) ∨
     (r.vStep ≠ 0 ∧ (size.height - r.min.height) % r.vStep ≠ 0) then
    false
  else
    true

/-- `bool operator==(const SizeRange &lhs, const SizeRange &rhs)`
(geometry.cpp:500-503): compares only `min` and `max`. -/
def sizeRangeEq (lhs rhs : SizeRange) : Bool :=
  decide (lhs.min = rhs.min) && decide (lhs.max = rhs.max)

/-- `Rectangle Size::centeredTo(const Point &center) const`
(geometry.cpp:271-277): `x = center.x - width / 2` with unsigned division
`width / 2`. -/
def Size.centeredTo (s : Size) (center : Point) : Rectangle :=
  ⟨center.x - ((s.width / 2 : Nat) : Int),
   center.y - ((s.height / 2 : Nat) : Int),
   s.width, s.height⟩

/-- `Point Rectangle::center() const` (geometry.cpp:595-598):
`(x + width / 2, y + height / 2)` with unsigned division. -/
def Rectangle.center (r : Rectangle) : Point :=
  ⟨r.x + ((r.width / 2 : Nat) : Int), r.y + ((r.height / 2 : Nat) : Int)⟩

/-- `Size Size::boundedToAspectRatio(const Size &ratio) const`
(geometry.cpp:222-235).  `ratio1` and `ratio2` are the exact `uint64_t`
cross products; both quotients fit back into `unsigned int`, so the final
casts are the identity. -/
def Size.boundedToAspectRatio (s ratio : Size) : Size :=
  if s.width * ratio.height > ratio.width * s.height then
    ⟨ratio.width * s.height / ratio.height, s.height⟩
  else
    ⟨s.width, s.width * ratio.height / ratio.width⟩

/-- `Rectangle Rectangle::boundedTo(const Rectangle &bound) const`
(geometry.cpp:662-673): rectangle intersection with per-axis clamp of the
extent at 0. -/
def Rectangle.boundedTo (r bound : Rectangle) : Rectangle :=
  let topLeftX := max r.x bound.x
  let topLeftY := max r.y bound.y
  let bottomRightX := min (r.x + (r.width : Int)) (bound.x + (bound.width : Int))
  let bottomRightY := min (r.y + (r.height : Int)) (bound.y + (bound.height : Int))
  ⟨topLeftX, topLeftY,
   (max (bottomRightX - topLeftX) 0).toNat,
   (max (bottomRightY - topLeftY) 0).toNat⟩

/-- `std::clamp<int>(v, lo, hi)`: `v < lo ? lo : hi < v ? hi : v`. -/
def clamp (v lo hi : Int) : Int :=
  if v < lo then lo else if hi < v then hi else v

/-- `Rectangle Rectangle::enclosedIn(const Rectangle &boundary) const`
(geometry.cpp:693-704): clip the size against the boundary's size via
`boundedTo` on a rectangle at this position, then clamp the position. -/
def Rectangle.enclosedIn (r boundary : Rectangle) : Rectangle :=
  let result := r.boundedTo ⟨r.x, r.y, boundary.width, boundary.height⟩
  ⟨clamp result.x boundary.x
     (boundary.x + (boundary.width : Int) - (result.width : Int)),
   clamp result.y boundary.y
     (boundary.y + (boundary.height : Int) - (result.height : Int)),
   result.width, result.height⟩

/-- `Rectangle &Rectangle::scaleBy(const Size &numerator, const Size
&denominator)` (geometry.cpp:623-631), modelled by state passing: the value
the in-place mutation leaves in the receiver.  `int64_t` products divided by
signed division truncate toward zero (`Int.tdiv`); `uint64_t` products use
`Nat` division. -/
def Rectangle.scaleBy (r : Rectangle) (numerator denominator : Size) : Rectangle :=
  ⟨Int.tdiv (r.x * (numerator.width : Int)) (denominator.width : Int),
   Int.tdiv (r.y * (numerator.height : Int)) (denominator.height : Int),
   r.width * numerator.width / denominator.width,
   r.height * numerator.height / denominator.height⟩

/-- `Rectangle Rectangle::scaledBy(const Size &numerator, const Size
&denominator) const` (geometry.cpp:717-725): the non-mutating variant,
translated from its own body. -/
def Rectangle.scaledBy (r : Rectangle) (numerator denominator : Size) : Rectangle :=
  ⟨Int.tdiv (r.x * (numerator.width : Int)) (denominator.width : Int),
   Int.tdiv (r.y * (numerator.height : Int)) (denominator.height : Int),
   r.width * numerator.width / denominator.width,
   r.height * numerator.height / denominator.height⟩

/-- `const std::string Rectangle::toString() const` (geometry.cpp:582-589):
`ss << "(" << x << "x" << y << ")/" << width << "x" << height`. -/
def Rectangle.toString (r : Rectangle) : String :=
  "(" ++ ToString.toString r.x ++ "x" ++ ToString.toString r.y ++ ")/" ++
    ToString.toString r.width ++ "x" ++ ToString.toString r.height

end Libcamera

namespace Libcamera

/-- C1: for all Sizes, `operator<` is decided by the three-tier rule exactly:
true if both components are strictly smaller; otherwise false if both
components are greater-or-equal; otherwise true iff the exact 64-bit area is
smaller, or the areas are equal and the width is smaller. -/
theorem size_lt_three_tier (lhs rhs : Size) :
    sizeLt lhs rhs = true ↔
      ((lhs.width < rhs.width ∧ lhs.height < rhs.height) ∨
       (¬(lhs.width < rhs.width ∧ lhs.height < rhs.height) ∧
        ¬(lhs.width ≥ rhs.width ∧ lhs.height ≥ rhs.height) ∧
        (lhs.width * lhs.height < rhs.width * rhs.height ∨
         (lhs.width * lhs.height = rhs.width * rhs.height ∧
          lhs.width < rhs.width)))) := by
  rcases lhs with ⟨lw, lh⟩
  rcases rhs with ⟨rw, rh⟩
  unfold sizeLt
  simp only
  generalize hA : lw * lh = A
  generalize hB : rw * rh = B
  split_ifs with h1 h2 h3 h4 <;> simp_all <;> omega

/-- C10: the strict Size ordering is not total on distinct values: for
a = Size(0,3) and b = Size(0,7) neither compares smaller than the other,
yet they differ. -/
theorem size_lt_not_total :
    sizeLt ⟨0, 3⟩ ⟨0, 7⟩ = false ∧ sizeLt ⟨0, 7⟩ ⟨0, 3⟩ = false ∧
      (⟨0, 3⟩ : Size) ≠ ⟨0, 7⟩ := by
  decide

/-- C2: `SizeRange::contains` returns true iff the width and height both lie
within `[min, max]` inclusive on both axes, and each non-zero step divides
the offset from the minimum on its axis; a step of 0 disables the modulo
check for that axis. -/
theorem sizeRange_contains_iff (r : SizeRange) (s : Size) :
    r.contains s = true ↔
      (r.min.width ≤ s.width ∧ s.width ≤ r.max.width ∧
       r.min.height ≤ s.height ∧ s.height ≤ r.max.height ∧
       (r.hStep = 0 ∨ (s.width - r.min.width) % r.hStep = 0) ∧
       (r.vStep = 0 ∨ (s.height - r.min.height) % r.vStep = 0)) := by
  unfold SizeRange.contains
  split_ifs with h
  · simp only [Bool.false_eq_true, false_iff]
    push_neg
    intro h1 h2 h3 h4
    rcases h with h | h | h | h | ⟨ha, hb⟩ | ⟨ha, hb⟩ <;> omega
  · push_neg at h
    simp only [true_iff]
    obtain ⟨h1, h2, h3, h4, h5, h6⟩ := h
    refine ⟨by omega, by omega, by omega, by omega, ?_, ?_⟩
    · by_cases hz : r.hStep = 0
      · exact Or.inl hz
      · exact Or.inr (by simpa using h5 hz)
    · by_cases hz : r.vStep = 0
      · exact Or.inl hz
      · exact Or.inr (by simpa using h6 hz)

/-- C7: SizeRange equality compares only `min` and `max`; the step fields
take no part, so two ranges differing only in their steps are equal. -/
theorem sizeRange_eq_ignores_steps :
    (∀ r1 r2 : SizeRange,
      sizeRangeEq r1 r2 = true ↔ r1.min = r2.min ∧ r1.max = r2.max) ∧
    (∀ (mn mx : Size) (h1 v1 h2 v2 : Nat),
      sizeRangeEq ⟨mn, mx, h1, v1⟩ ⟨mn, mx, h2, v2⟩ = true) := by
  constructor
  · intro r1 r2
    simp [sizeRangeEq]
  · intro mn mx h1 v1 h2 v2
    simp [sizeRangeEq]

/-- C9: `Size::centeredTo` produces a Rectangle of the same size whose
top-left corner is `(p.x - width / 2, p.y - height / 2)` with truncating
division, and `Rectangle::center` recovers exactly the requested center
point because it adds back the same truncated half-extents. -/
theorem centeredTo_center (s : Size) (p : Point) :
    s.centeredTo p =
      ⟨p.x - ((s.width / 2 : Nat) : Int), p.y - ((s.height / 2 : Nat) : Int),
       s.width, s.height⟩ ∧
    (s.centeredTo p).center = p := by
  refine ⟨rfl, ?_⟩
  simp only [Size.centeredTo, Rectangle.center]
  rcases p with ⟨px, py⟩
  simp only [Point.mk.injEq]
  omega

/-- C3: `Rectangle::boundedTo` returns the rectangle with top-left the
per-axis maximum of the two top-left corners and, per axis, extent
`max(min(r.far, bound.far) - max(r.near, bound.near), 0)`; non-overlap on
one axis zeroes only that dimension, as the two quoted examples show. -/
theorem rect_boundedTo_spec :
    (∀ r bound : Rectangle,
      r.boundedTo bound =
        ⟨max r.x bound.x, max r.y bound.y,
         (max (min (r.x + (r.width : Int)) (bound.x + (bound.width : Int)) -
               max r.x bound.x) 0).toNat,
         (max (min (r.y + (r.height : Int)) (bound.y + (bound.height : Int)) -
               max r.y bound.y) 0).toNat⟩) ∧
    (Rectangle.boundedTo ⟨0, 0, 10, 10⟩ ⟨20, 0, 10, 10⟩).width = 0 ∧
    (Rectangle.boundedTo ⟨0, 0, 10, 10⟩ ⟨20, 0, 10, 10⟩).height = 10 ∧
    Rectangle.boundedTo ⟨0, 0, 100, 100⟩ ⟨50, 50, 100, 100⟩ =
      ⟨50, 50, 50, 50⟩ := by
  refine ⟨fun r bound => rfl, by decide, by decide, by decide⟩

/-- C4: `Rectangle::enclosedIn` first shrinks the width and height to at
most the boundary's (a per-axis minimum, so only where they exceed it,
keeping the position), then clamps x into
`[b.x, b.x + b.width - result.width]` and y analogously; a rectangle whose
size already fits is only translated, as the quoted example shows. -/
theorem rect_enclosedIn_spec :
    (∀ r b : Rectangle,
      r.enclosedIn b =
        ⟨clamp r.x b.x
           (b.x + (b.width : Int) - ((min r.width b.width : Nat) : Int)),
         clamp r.y b.y
           (b.y + (b.height : Int) - ((min r.height b.height : Nat) : Int)),
         min r.width b.width, min r.height b.height⟩) ∧
    Rectangle.enclosedIn ⟨90, 90, 20, 20⟩ ⟨0, 0, 100, 100⟩ =
      ⟨80, 80, 20, 20⟩ := by
  constructor
  · intro r b
    have hw : (max (min (r.x + (r.width : Int)) (r.x + (b.width : Int)) -
        r.x) 0).toNat = min r.width b.width := by omega
    have hh : (max (min (r.y + (r.height : Int)) (r.y + (b.height : Int)) -
        r.y) 0).toNat = min r.height b.height := by omega
    simp only [Rectangle.enclosedIn, Rectangle.boundedTo, hw, hh, max_self]
  · decide

/-- C5: `Size::boundedToAspectRatio` with a non-degenerate ratio compares
the exact cross products and recomputes one dimension by truncating
division, keeping the other fixed; the result never exceeds the original
component-wise, nor in cross product against the ratio. -/
theorem size_boundedToAspectRatio_spec (s ratio : Size)
    (hw : ratio.width ≠ 0) (hh : ratio.height ≠ 0) :
    s.boundedToAspectRatio ratio =
      (if s.width * ratio.height > ratio.width * s.height then
        (⟨ratio.width * s.height / ratio.height, s.height⟩ : Size)
      else
        ⟨s.width, s.width * ratio.height / ratio.width⟩) ∧
    ((s.boundedToAspectRatio ratio).height = s.height ∨
     (s.boundedToAspectRatio ratio).width = s.width) ∧
    (s.boundedToAspectRatio ratio).width ≤ s.width ∧
    (s.boundedToAspectRatio ratio).height ≤ s.height ∧
    (s.boundedToAspectRatio ratio).width * ratio.height ≤
      s.width * ratio.height ∧
    ratio.width * (s.boundedToAspectRatio ratio).height ≤
      ratio.width * s.height := by
  have hW : (s.boundedToAspectRatio ratio).width ≤ s.width := by
    unfold Size.boundedToAspectRatio
    split_ifs with h
    · exact le_of_lt ((Nat.div_lt_iff_lt_mul (Nat.pos_of_ne_zero hh)).mpr h)
    · exact le_refl s.width
  have hH : (s.boundedToAspectRatio ratio).height ≤ s.height := by
    unfold Size.boundedToAspectRatio
    split_ifs with h
    · exact le_refl s.height
    · calc s.width * ratio.height / ratio.width
          ≤ ratio.width * s.height / ratio.width :=
            Nat.div_le_div_right (not_lt.mp h)
        _ = s.height := Nat.mul_div_cancel_left s.height (Nat.pos_of_ne_zero hw)
  refine ⟨rfl, ?_, hW, hH, Nat.mul_le_mul_right _ hW, Nat.mul_le_mul_left _ hH⟩
  unfold Size.boundedToAspectRatio
  split_ifs with h
  · exact Or.inl rfl
  · exact Or.inr rfl

/-- Witness for C5 at Size(1920,1080) with ratio Size(4,3). -/
theorem size_boundedToAspectRatio_spec_witness :
    (⟨4, 3⟩ : Size).width ≠ 0 ∧ (⟨4, 3⟩ : Size).height ≠ 0 ∧
      (Size.boundedToAspectRatio ⟨1920, 1080⟩ ⟨4, 3⟩).width ≤ 1920 ∧
      (Size.boundedToAspectRatio ⟨1920, 1080⟩ ⟨4, 3⟩).height ≤ 1080 :=
  ⟨by decide, by decide,
   (size_boundedToAspectRatio_spec ⟨1920, 1080⟩ ⟨4, 3⟩
     (by decide) (by decide)).2.2.1,
   (size_boundedToAspectRatio_spec ⟨1920, 1080⟩ ⟨4, 3⟩
     (by decide) (by decide)).2.2.2.1⟩

/-- C6 counterexample: `Rectangle::toString` does not separate the x and y
coordinates with a comma: Rectangle(1,2,3,4) does not render as
"(1,2)/3x4". -/
theorem rect_toString_not_comma :
    Rectangle.toString ⟨1, 2, 3, 4⟩ ≠ "(1,2)/3x4" := by
  decide

/-- C6 amended: `Rectangle::toString` renders "(XxY)/WxH" — the x and y
coordinates inside parentheses separated by the character x, then a slash,
then width and height separated by x; Rectangle(1,2,3,4) renders as
"(1x2)/3x4", and a negative coordinate keeps its sign. -/
theorem rect_toString_format :
    (∀ r : Rectangle,
      Rectangle.toString r =
        "(" ++ ToString.toString r.x ++ "x" ++ ToString.toString r.y ++
          ")/" ++ ToString.toString r.width ++ "x" ++
          ToString.toString r.height) ∧
    Rectangle.toString ⟨1, 2, 3, 4⟩ = "(1x2)/3x4" ∧
    Rectangle.toString ⟨-1, 2, 3, 4⟩ = "(-1x2)/3x4" :=
  ⟨fun _ => rfl, by decide, by decide⟩

/-- C8: the non-mutating `Rectangle::scaledBy` returns exactly the value
the in-place `scaleBy` leaves in the receiver, both computing each field by
64-bit multiplication then division by the matching denominator component. -/
theorem rect_scaledBy_eq_scaleBy (r : Rectangle) (numerator denominator : Size)
    (_hw : denominator.width ≠ 0) (_hh : denominator.height ≠ 0) :
    r.scaledBy numerator denominator = r.scaleBy numerator denominator ∧
    r.scaleBy numerator denominator =
      ⟨Int.tdiv (r.x * (numerator.width : Int)) (denominator.width : Int),
       Int.tdiv (r.y * (numerator.height : Int)) (denominator.height : Int),
       r.width * numerator.width / denominator.width,
       r.height * numerator.height / denominator.height⟩ :=
  ⟨rfl, rfl⟩

/-- Witness for C8 at Rectangle(10,20,30,40) scaled by 3/2 on both axes. -/
theorem rect_scaledBy_eq_scaleBy_witness :
    (⟨2, 2⟩ : Size).width ≠ 0 ∧ (⟨2, 2⟩ : Size).height ≠ 0 ∧
      Rectangle.scaledBy ⟨10, 20, 30, 40⟩ ⟨3, 3⟩ ⟨2, 2⟩ =
        Rectangle.scaleBy ⟨10, 20, 30, 40⟩ ⟨3, 3⟩ ⟨2, 2⟩ :=
  ⟨by decide, by decide,
   (rect_scaledBy_eq_scaleBy ⟨10, 20, 30, 40⟩ ⟨3, 3⟩ ⟨2, 2⟩
     (by decide) (by decide)).1⟩

end Libcamera
